import Mathlib

/-!
# Office-Portal: verification of the core coordination mechanisms

This development embeds, in Lean, the core of the Office-Portal record
management system:

* the server-side read-through cache with mutual exclusion
  (`getDataWithCache`, `doPost` / `doGet` routing and cache invalidation,
  from `google-apps-script.js`);
* the generic sheet CRUD handlers (`genericAdd`, `genericUpdate`,
  `genericDelete`, the Accounts / Financing handlers and the legacy
  Customer Service Hub record handlers);
* the client-side sync coordinator (`withSyncStatus` from
  `components/Dashboard.tsx`) and the optimistic state-manager pattern
  (`AccountsView.handleSave` / `handleStatusChange` / `handleDelete`,
  `FinancingLedgerView.handleDelete`).

Modelling conventions:

* Spreadsheet cell values are modelled as `String` (the sheet cells are
  compared with `String(x).trim()` in the source, so only their string
  view is ever observed by the embedded code paths).
* A JS object used as a record of string fields is modelled as an
  association list `Payload`; `obj.hasOwnProperty(k)` is `hasKey`,
  `obj[k]` is `lookupP`, `obj[k] = v` is `setP`, and the JS idiom
  `obj[k] || ''` is `(lookupP obj k).getD ""` (the only falsy `String`
  is `""`).
* External services (Drive uploads, e-mail, `Math.random` id suffixes,
  `new Date()`) are modelled as explicit parameters supplied by the
  environment; their results are opaque to the embedded logic.
* The script cache (`CacheService`) is a key → (payload, expiry) map;
  `LockService.getScriptLock()` is modelled in two ways: as a flag in
  the sequential model of `getDataWithCache`, and as an exclusive lock
  holder in the interleaved multi-caller transition system used for the
  stampede-protection property.
-/

/-! ## JS objects as association lists -/

/-- A JS object holding string fields, as an association list. -/
abbrev Payload := List (String × String)

/-- JS `String.prototype.trim()`: strip leading and trailing
whitespace (modelled structurally on the character list so that it
evaluates inside the kernel). -/
def jsTrim (s : String) : String :=
  ⟨((s.data.dropWhile Char.isWhitespace).reverse.dropWhile
      Char.isWhitespace).reverse⟩

/-- `obj[k]`: the value of field `k`, if present. -/
def lookupP (p : Payload) (k : String) : Option String :=
  (p.find? (fun kv => kv.1 == k)).map (·.2)

/-- `obj.hasOwnProperty(k)`. -/
def hasKey (p : Payload) (k : String) : Bool :=
  (lookupP p k).isSome

/-- `obj[k] = v`: overwrite the field if present, otherwise add it. -/
def setP (p : Payload) (k v : String) : Payload :=
  if hasKey p k then p.map (fun kv => if kv.1 == k then (k, v) else kv)
  else p ++ [(k, v)]

/-- Structural decidable equality for `Except` results (used to
evaluate handler outcomes on concrete inputs). -/
instance {A B : Type} [DecidableEq A] [DecidableEq B] : DecidableEq (Except A B) :=
  fun a b =>
    match a, b with
    | .ok x, .ok y =>
      if h : x = y then isTrue (by rw [h]) else isFalse (by intro hc; cases hc; exact h rfl)
    | .error x, .error y =>
      if h : x = y then isTrue (by rw [h]) else isFalse (by intro hc; cases hc; exact h rfl)
    | .ok _, .error _ => isFalse (by intro hc; cases hc)
    | .error _, .ok _ => isFalse (by intro hc; cases hc)

/-! ## The cache store (`CacheService.getScriptCache()`)

A script-cache entry is a payload string together with its absolute
expiry instant; `cache.get` returns `null` once the entry has expired,
and `cache.put(key, value, ttl)` stores the value until `now + ttl`. -/

/-- The script cache: key → (payload, expiry instant). -/
abbrev CacheStore := String → Option (String × Nat)

/-- `cache.get(key)` at instant `now`: an expired entry reads as absent. -/
def cacheGet (c : CacheStore) (now : Nat) (k : String) : Option String :=
  match c k with
  | some (v, expiresAt) => if now < expiresAt then some v else none
  | none => none

/-- `cache.put(key, value, ttlSeconds)` at instant `now`. -/
def cachePut (c : CacheStore) (now : Nat) (k v : String) (ttl : Nat) : CacheStore :=
  fun k' => if k' = k then some (v, now + ttl) else c k'

/-- `cache.remove(key)` (`clearCache` in the source). -/
def cacheRemove (c : CacheStore) (k : String) : CacheStore :=
  fun k' => if k' = k then none else c k'

/-- `CACHE_EXPIRATION_SECONDS = 300` from the global configuration. -/
def CACHE_EXPIRATION_SECONDS : Nat := 300

/-! ## `getDataWithCache` (sequential view)

`getDataWithCache(sheetName, fetchFunction)` reads the cache, and on a
miss acquires the script lock (waiting up to 30000 ms), re-reads the
cache, and only then fetches and populates.  Because another request may
run between the first read and the read made after the lock wait, the
two observations of the shared cache are independent parameters
`(c1, t1)` and `(c2, t2)`.  A fetch that throws is an `Except.error`;
the `finally` block releases the lock on every lock-taking path. -/

/-- What one call of `getDataWithCache` did: its result (or the error it
re-threw), whether the lock was taken (and with which wait bound),
whether it was released, whether `fetchFunction` was invoked, and the
`cache.put` it performed, if any (value and TTL argument). -/
structure GopOutcome where
  outcome : Except String String
  lockAcquired : Bool
  lockWaitMs : Option Nat
  lockReleased : Bool
  fetchInvoked : Bool
  stored : Option (String × Nat)
  deriving Repr

/-- `getDataWithCache` from `google-apps-script.js`:
fast-path read at `(c1, t1)`; on a miss, `lock.waitLock(30000)`, the
double-check read at `(c2, t2)`, then `fetchFunction()` and
`cache.put(sheetName, data, CACHE_EXPIRATION_SECONDS)`. -/
def getDataWithCache (c1 : CacheStore) (t1 : Nat) (c2 : CacheStore) (t2 : Nat)
    (sheetName : String) (fetch : Except String String) : GopOutcome :=
  match cacheGet c1 t1 sheetName with
  | some cached => ⟨.ok cached, false, none, false, false, none⟩
  | none =>
    match cacheGet c2 t2 sheetName with
    | some cachedAfterLock => ⟨.ok cachedAfterLock, true, some 30000, true, false, none⟩
    | none =>
      match fetch with
      | .ok data =>
        ⟨.ok data, true, some 30000, true, true, some (data, CACHE_EXPIRATION_SECONDS)⟩
      | .error e => ⟨.error e, true, some 30000, true, true, none⟩

/-- Apply the `cache.put` recorded in a `GopOutcome` (if any) to the
cache as it stood at the second observation. -/
def applyStored (c : CacheStore) (now : Nat) (k : String) :
    Option (String × Nat) → CacheStore
  | some (v, ttl) => cachePut c now k v ttl
  | none => c

/-- A wire response: `{status:"success", data}` or `{status:"error", message}`. -/
inductive ApiResponse where
  | success (data : String)
  | error (message : String)
  deriving Repr, DecidableEq

/-- `response.status === 'success'`. -/
def ApiResponse.isSuccess : ApiResponse → Bool
  | .success _ => true
  | .error _ => false

/-- The `doGet` read path around `getDataWithCache`: a normal return is
wrapped as `{status:"success", data}`, a thrown error is caught and
returned as `{status:"error", message}`. -/
def doGetData (c1 : CacheStore) (t1 : Nat) (c2 : CacheStore) (t2 : Nat)
    (sheetName : String) (fetch : Except String String) : ApiResponse :=
  match (getDataWithCache c1 t1 c2 t2 sheetName fetch).outcome with
  | .ok data => .success data
  | .error e => .error e

/-! ## The sync coordinator (`withSyncStatus`, `components/Dashboard.tsx`)

`withSyncStatus(action)` updates the shared
`{pending, status, message}` state three ways: on invocation, on the
action's promise resolving, and on it rejecting (in which case the
rejection is re-thrown).  Each `setSyncState` call is atomic with
respect to the single-threaded scheduler, so a set of concurrent calls
is an interleaving of these three atomic events. -/

/-- The `status` field of the dashboard sync state. -/
inductive SyncStatus where
  | idle
  | syncing
  | success
  | error
  deriving Repr, DecidableEq

/-- The dashboard `syncState`.  `pending` is a JS number; the code only
adds and subtracts 1, so it is modelled as `Int`. -/
structure SyncState where
  pending : Int
  status : SyncStatus
  message : String
  deriving Repr, DecidableEq

/-- `useState` initial value: `{ pending: 0, status: 'idle', message: '' }`. -/
def initSyncState : SyncState := ⟨0, .idle, ""⟩

/-- ``` `Saving ${n} change${n > 1 ? 's' : ''}...` ```. -/
def savingMessage (n : Int) : String :=
  "Saving " ++ toString n ++ " change" ++ (if n > 1 then "s" else "") ++ "..."

/-- The `setSyncState` performed when `withSyncStatus` is invoked. -/
def syncStart (s : SyncState) : SyncState :=
  ⟨s.pending + 1, .syncing, savingMessage (s.pending + 1)⟩

/-- The `setSyncState` performed when the awaited action resolves. -/
def syncResolve (s : SyncState) : SyncState :=
  let newPending := s.pending - 1
  if newPending = 0 then ⟨0, .success, "All changes saved."⟩
  else ⟨newPending, .syncing, savingMessage newPending⟩

/-- The `setSyncState` performed when the awaited action rejects;
`errorMessage` is derived from the rejection reason
(`err instanceof Error ? err.message : 'Update failed.'`). -/
def syncReject (errorMessage : String) (s : SyncState) : SyncState :=
  ⟨s.pending - 1, .error, errorMessage⟩

/-- One `withSyncStatus(action)` call run without interference: the
invocation update, then the settle update chosen by the action's
outcome.  The rejection is re-thrown (second component). -/
def withSyncStatus (s : SyncState) (outcome : Except String Unit) :
    SyncState × Except String Unit :=
  let s1 := syncStart s
  match outcome with
  | .ok _ => (syncResolve s1, .ok ())
  | .error e => (syncReject e s1, .error e)

/-! ### Interleaved runs of several `withSyncStatus` calls

The atomic events of the shared sync state are the three `setSyncState`
updates; a run of `N` concurrent calls is a list of events in which each
call contributes one `start` and, later, one `resolve` or one
`reject`. -/

/-- An atomic update of the shared sync state. -/
inductive SyncEvent where
  | start
  | resolve
  | reject (errorMessage : String)
  deriving Repr, DecidableEq

/-- Apply one event to the sync state. -/
def syncStep (s : SyncState) : SyncEvent → SyncState
  | .start => syncStart s
  | .resolve => syncResolve s
  | .reject m => syncReject m s

/-- The sync state after a sequence of events, from the initial state. -/
def runSyncTrace (tr : List SyncEvent) : SyncState :=
  tr.foldl syncStep initSyncState

/-- Number of `start` events. -/
def countStarts (tr : List SyncEvent) : Nat :=
  tr.countP (fun e => e matches .start)

/-- Number of settle events (`resolve` or `reject`). -/
def countSettles (tr : List SyncEvent) : Nat :=
  tr.countP (fun e => !(e matches .start))

/-- Number of `resolve` events. -/
def countResolves (tr : List SyncEvent) : Nat :=
  tr.countP (fun e => e matches .resolve)

/-- Number of `reject` events. -/
def countRejects (tr : List SyncEvent) : Nat :=
  tr.countP (fun e => e matches .reject _)

/-- A trace is an interleaving of complete calls: every prefix has at
least as many starts as settles (a call settles only after it starts),
and in total every started call has settled. -/
def ValidCompleteTrace (tr : List SyncEvent) : Prop :=
  (∀ pre, pre <+: tr → countSettles pre ≤ countStarts pre) ∧
  countStarts tr = countSettles tr

instance : DecidablePred ValidCompleteTrace := fun tr =>
  decidable_of_iff
    ((∀ pre ∈ tr.inits, countSettles pre ≤ countStarts pre) ∧
      countStarts tr = countSettles tr)
    (by
      constructor
      · rintro ⟨h1, h2⟩
        exact ⟨fun pre hpre => h1 pre ((List.mem_inits pre tr).mpr hpre), h2⟩
      · rintro ⟨h1, h2⟩
        exact ⟨fun pre hpre => h1 pre ((List.mem_inits pre tr).mp hpre), h2⟩)

/-! ## The optimistic state manager (per-collection pattern)

`AccountsView.handleSave` (update branch), `AccountsView.handleStatusChange`,
`AccountsView.handleDelete` and `FinancingLedgerView.handleDelete` all
follow the same pattern: copy the displayed collection into a snapshot,
apply the speculative edit with `setAccounts` / `setRecords`, run
`withSyncStatus(action)` where `action` performs the server mutation and
then the authoritative refetch, and on a rejection restore the snapshot.

The network outcomes are parameters: `Except.error` is a rejected
promise.  A successful refetch carries the authoritative collection that
`refetchData` installs. -/

/-- A client-side account record.  `accountID` and `timestamp` are the
fields excluded from the edit form (`Omit<Account, 'accountID' | 'timestamp'>`);
`status` is the field driven by `handleStatusChange`; all remaining form
fields are collected in `fields`. -/
structure Account where
  accountID : String
  timestamp : String
  status : String
  fields : Payload
  deriving Repr, DecidableEq

/-- The edit-form data `dataToSave` (an account minus `accountID` and
`timestamp`). -/
structure AccountData where
  status : String
  fields : Payload
  deriving Repr, DecidableEq

/-- `{ ...editingAccount, ...dataToSave }`: every form field comes from
`dataToSave`; `accountID` and `timestamp` are kept from the record being
edited. -/
def mergeAccount (editingAccount : Account) (dataToSave : AccountData) : Account :=
  ⟨editingAccount.accountID, editingAccount.timestamp, dataToSave.status, dataToSave.fields⟩

/-- `AccountsView.handleSave`, update branch (`editingAccount` set).
Returns the displayed collection after the handler finishes:
the optimistic map is applied, then on success the refetched collection
replaces the display, and on failure the snapshot `originalAccounts` is
restored.  `outcome` is the settled result of
`withSyncStatus(updateAction)`, whose success value is the collection
installed by `refetchData`. -/
def handleSaveUpdate (accounts : List Account) (editingAccount : Account)
    (dataToSave : AccountData) (outcome : Except String (List Account)) :
    List Account :=
  let originalAccounts := accounts
  let updatedAccount := mergeAccount editingAccount dataToSave
  let _optimistic := accounts.map
    (fun acc => if acc.accountID == updatedAccount.accountID then updatedAccount else acc)
  match outcome with
  | .ok refetched => refetched
  | .error _ => originalAccounts

/-- The displayed collection right after the optimistic apply of an
update (before the mutation settles). -/
def optimisticUpdate (accounts : List Account) (updatedAccount : Account) :
    List Account :=
  accounts.map
    (fun acc => if acc.accountID == updatedAccount.accountID then updatedAccount else acc)

/-- `AccountsView.handleStatusChange`: like the update branch, with
`{ ...accountToUpdate, status: newStatus }` as the merged record. -/
def handleStatusChange (accounts : List Account) (accountToUpdate : Account)
    (newStatus : String) (outcome : Except String (List Account)) :
    List Account :=
  let originalAccounts := accounts
  let updatedAccount := { accountToUpdate with status := newStatus }
  let _optimistic := optimisticUpdate accounts updatedAccount
  match outcome with
  | .ok refetched => refetched
  | .error _ => originalAccounts

/-- `AccountsView.handleDelete` (after the user confirms): the
optimistic filter removes the record, `deleteAction` runs
`deleteAccount` then `refetchData`, and any rejection of the combined
action restores the snapshot.  The two outcomes are passed separately so
that a refetch failure after a successful delete is expressible. -/
def handleDeleteAccountsView (accounts : List Account) (account : Account)
    (deleteOutcome : Except String Unit)
    (refetchOutcome : Except String (List Account)) : List Account :=
  let originalAccounts := accounts
  let _optimistic := accounts.filter (fun a => a.accountID != account.accountID)
  match deleteOutcome with
  | .error _ => originalAccounts
  | .ok _ =>
    match refetchOutcome with
    | .ok refetched => refetched
    | .error _ => originalAccounts

/-- A client-side financing-ledger record (`finance_id` plus the other
fields, which the delete handler never inspects). -/
structure FinancingRecord where
  finance_id : String
  fields : Payload
  deriving Repr, DecidableEq

/-- `FinancingLedgerView.handleDelete` for the selected record:
optimistic `filter(r => r.finance_id !== recordIdToDelete)`, then
`deleteFinancingRecord` and `refetchData` inside `withSyncStatus`; a
rejection of either restores `originalRecords`. -/
def handleDeleteFinancing (records : List FinancingRecord)
    (recordIdToDelete : String) (deleteOutcome : Except String Unit)
    (refetchOutcome : Except String (List FinancingRecord)) :
    List FinancingRecord :=
  let originalRecords := records
  let _optimistic := records.filter (fun r => r.finance_id != recordIdToDelete)
  match deleteOutcome with
  | .error _ => originalRecords
  | .ok _ =>
    match refetchOutcome with
    | .ok refetched => refetched
    | .error _ => originalRecords

/-- The displayed financing collection right after the optimistic
removal (while the delete is in flight). -/
def optimisticRemoveFinancing (records : List FinancingRecord)
    (recordIdToDelete : String) : List FinancingRecord :=
  records.filter (fun r => r.finance_id != recordIdToDelete)

/-! ## Sheets and server-side CRUD handlers (`google-apps-script.js`)

A sheet is its `getDataRange().getValues()` matrix: the first row holds
the column headers, the remaining rows the records.  Row indices
(`rowInfo.rowIndex`) are 1-based as in the source, so the list index of
a data row is `rowIndex - 1`. -/

/-- A spreadsheet as its raw value matrix (first row = headers). -/
abbrev Sheet := List (List String)

/-- `SHEET_NAMES` from the global configuration. -/
def SHEET_customerService : String := "Customer Service Hub"

def SHEET_accounts : String := "Accounts"

def SHEET_tasks : String := "Tasks"

def SHEET_directory : String := "Directory"

def SHEET_products : String := "Products"

def SHEET_financingLedger : String := "FinancingLedger"

def SHEET_users : String := "Users"

/-- The result of `findRowByHeaderValue` / `findRowById` on a hit. -/
structure RowInfo where
  rowIndex : Nat
  rowData : List String
  headers : List String
  deriving Repr, DecidableEq

/-- `findRowByHeaderValue(sheet, id, headerName)`: throws if the header
column is missing, otherwise scans the data rows (from index 1) for the
first row whose cell in that column, trimmed, equals the trimmed id.
(The source's error message also interpolates `sheet.getName()`; the
model's sheets carry no name.) -/
def findRowByHeaderValue (sheet : Sheet) (id headerName : String) :
    Except String (Option RowInfo) :=
  let headers := sheet.headD []
  match headers.findIdx? (fun h => h == headerName) with
  | none => .error ("Header \"" ++ headerName ++ "\" not found in sheet.")
  | some idColumnIndex =>
    match (sheet.drop 1).findIdx?
        (fun row => jsTrim (row.getD idColumnIndex "") == jsTrim id) with
    | some j => .ok (some ⟨j + 2, (sheet.drop 1).getD j [], headers⟩)
    | none => .ok none

/-- `findRowById(sheet, id, idColumnName)`: like `findRowByHeaderValue`
but a missing id column yields `null` instead of throwing. -/
def findRowById (sheet : Sheet) (id idColumnName : String) : Option RowInfo :=
  let headers := sheet.headD []
  match headers.findIdx? (fun h => h == idColumnName) with
  | none => none
  | some idColumnIndex =>
    match (sheet.drop 1).findIdx?
        (fun row => jsTrim (row.getD idColumnIndex "") == jsTrim id) with
    | some j => some ⟨j + 2, (sheet.drop 1).getD j [], headers⟩
    | none => none

/-- The row written back by `genericUpdate` / `handleUpdateFinancingRecord`:
`headers.map((header, index) => payload.hasOwnProperty(header) ? payload[header] : rowData[index])`. -/
def buildUpdatedRow (headers rowData : List String) (p : Payload) : List String :=
  headers.enum.map
    (fun ih => if hasKey p ih.2 then (lookupP p ih.2).getD "" else rowData.getD ih.1 "")

/-- `genericAdd(sheetName, payload, idPrefix, idKey, autoTimestampKey)`:
assigns `idPrefix + <random suffix>` as the id, optionally stamps the
timestamp column, and appends `headers.map(h => payload[h] || '')`.
`idSuffix` stands for `Math.random().toString(36).slice(2, 11)` and
`now` for `new Date()`. -/
def genericAdd (sheet : Sheet) (p : Payload) (idPrefix idKey : String)
    (autoTimestampKey : Option String) (idSuffix now : String) :
    Sheet × Except String Unit :=
  let newId := idPrefix ++ idSuffix
  let p1 := setP p idKey newId
  let p2 := match autoTimestampKey with
    | some k => setP p1 k now
    | none => p1
  let headers := sheet.headD []
  let newRow := headers.map (fun h => (lookupP p2 h).getD "")
  (sheet ++ [newRow], .ok ())

/-- `genericUpdate(sheetName, payload, idKey, autoTimestampKey)`:
requires a (truthy) id in the payload, locates the row, optionally
stamps the timestamp column into the payload, and overwrites the row
with `buildUpdatedRow`. -/
def genericUpdate (sheetName : String) (sheet : Sheet) (p : Payload)
    (idKey : String) (autoTimestampKey : Option String) (now : String) :
    Sheet × Except String Unit :=
  match lookupP p idKey with
  | none => (sheet, .error (idKey ++ " is required for update."))
  | some id =>
    if id = "" then (sheet, .error (idKey ++ " is required for update."))
    else
      match findRowByHeaderValue sheet id idKey with
      | .error e => (sheet, .error e)
      | .ok none =>
        (sheet, .error (sheetName.dropRight 1 ++ " with ID " ++ id ++ " not found."))
      | .ok (some rowInfo) =>
        let p2 := match autoTimestampKey with
          | some k => setP p k now
          | none => p
        let newRowData := buildUpdatedRow rowInfo.headers rowInfo.rowData p2
        (sheet.set (rowInfo.rowIndex - 1) newRowData, .ok ())

/-- `genericDelete(sheetName, payload, idKey)`. -/
def genericDelete (sheetName : String) (sheet : Sheet) (p : Payload)
    (idKey : String) : Sheet × Except String Unit :=
  match lookupP p idKey with
  | none => (sheet, .error (idKey ++ " is required for deletion."))
  | some id =>
    if id = "" then (sheet, .error (idKey ++ " is required for deletion."))
    else
      match findRowByHeaderValue sheet id idKey with
      | .error e => (sheet, .error e)
      | .ok (some rowInfo) => (sheet.eraseIdx (rowInfo.rowIndex - 1), .ok ())
      | .ok none =>
        (sheet, .error (sheetName.dropRight 1 ++ " ID not found for deletion: " ++ id))

/-! ## The Accounts module and its header → field mapping -/

/- The camel-casing inside `getHeaderToFieldMap`: strip every character
that is not alphanumeric or whitespace, lower-case a leading word
character, then replace each whitespace run followed by a character with
that character upper-cased (the `/\s+(.)/g` substitution, implemented
below by `camelGo` / `camelWs`; a trailing whitespace run has no
following character, so the regex leaves it in place). -/
mutual

/-- Scan for the next whitespace run (see the comment above). -/
def camelGo : List Char → List Char
  | [] => []
  | c :: rest =>
    if c.isWhitespace then camelWs [c] rest else c :: camelGo rest

/-- Consume a whitespace run; upper-case the character that follows it,
or restore the run if the string ends. -/
def camelWs (ws : List Char) : List Char → List Char
  | [] => ws.reverse
  | c :: rest =>
    if c.isWhitespace then camelWs (c :: ws) rest else c.toUpper :: camelGo rest

end

/-- The camel-case key computed for one (already trimmed) header. -/
def camelCaseKey (cleanHeader : String) : String :=
  let cleaned := cleanHeader.data.filter (fun c => c.isAlphanum || c.isWhitespace)
  let lowered := match cleaned with
    | [] => []
    | c :: rest => if c.isAlphanum then c.toLower :: rest else c :: rest
  ⟨camelGo lowered⟩

/-- `getHeaderToFieldMap(headers)` followed by the lookup
`headerMap[header.trim()]`: falsy (empty) headers are skipped when the
map is built, and the value stored under a trimmed header is always its
own camel-cased form. -/
def headerMapLookup (headers : List String) (k : String) : Option String :=
  if headers.any (fun h => h ≠ "" && jsTrim h == k) then some (camelCaseKey k)
  else none

/-- The cell written by `handleAddAccount` for one header. -/
def accountAddCell (p : Payload) (newId now fileUrl : String) :
    Option String → String
  | some key =>
    if key = "accountID" then newId
    else if key = "timestamp" then now
    else if key = "fileUpload" then fileUrl
    else (lookupP p key).getD ""
  | none =>
    -- an absent map entry leaves `key` undefined and `payload[key]`
    -- reads the literal "undefined" property
    (lookupP p "undefined").getD ""

/-- The cell written by `handleUpdateAccount` for one header (checks in
source order: timestamp, accountID, a freshly uploaded file URL, a
payload field, otherwise the existing cell). -/
def accountUpdateCell (p : Payload) (accountID now : String)
    (fileUrl : Option String) (existing : String) : Option String → String
  | some key =>
    if key = "timestamp" then now
    else if key = "accountID" then accountID
    else if key = "fileUpload" && fileUrl.isSome then fileUrl.getD ""
    else if hasKey p key then (lookupP p key).getD ""
    else existing
  | none =>
    if hasKey p "undefined" then (lookupP p "undefined").getD "" else existing

/-- The row appended by `handleAddAccount`. -/
def buildAccountAddRow (headers : List String) (p : Payload)
    (newId now fileUrl : String) : List String :=
  headers.map
    (fun header => accountAddCell p newId now fileUrl (headerMapLookup headers (jsTrim header)))

/-- The row written back by `handleUpdateAccount`. -/
def buildAccountUpdateRow (headers existingData : List String) (p : Payload)
    (now : String) (fileUrl : Option String) : List String :=
  headers.enum.map
    (fun ih =>
      accountUpdateCell p ((lookupP p "accountID").getD "") now fileUrl
        (existingData.getD ih.1 "") (headerMapLookup headers (jsTrim ih.2)))

/-- `handleAddAccount(payload)`: `fileUrl` is `''` unless a file was
uploaded to Drive, in which case it is the returned URL. -/
def handleAddAccount (sheet : Sheet) (p : Payload) (idSuffix now fileUrl : String) :
    Sheet × Except String Unit :=
  let newId := "acc-" ++ idSuffix
  let headers := sheet.headD []
  (sheet ++ [buildAccountAddRow headers p newId now fileUrl], .ok ())

/-- `handleUpdateAccount(payload)`: `fileUrl` is `null` unless
`payload.file` was present and uploaded. -/
def handleUpdateAccount (sheet : Sheet) (p : Payload) (now : String)
    (fileUrl : Option String) : Sheet × Except String Unit :=
  let accountID := (lookupP p "accountID").getD ""
  match findRowById sheet accountID "AccountID" with
  | some rowInfo =>
    (sheet.set (rowInfo.rowIndex - 1)
        (buildAccountUpdateRow rowInfo.headers rowInfo.rowData p now fileUrl),
      .ok ())
  | none => (sheet, .error ("Account ID not found for update: " ++ accountID))

/-- `handleDeleteAccount(payload)`. -/
def handleDeleteAccount (sheet : Sheet) (p : Payload) : Sheet × Except String Unit :=
  let accountID := (lookupP p "accountID").getD ""
  match findRowById sheet accountID "AccountID" with
  | some rowInfo => (sheet.eraseIdx (rowInfo.rowIndex - 1), .ok ())
  | none => (sheet, .error ("Account ID not found for deletion: " ++ accountID))

/-! ## The Financing Ledger module -/

/-- `handleAddFinancingRecord(payload)`: assigns `FIN-<suffix>`, stamps
`created_on` / `last_updated`, merges the uploaded file URLs into the
payload, and appends `headers.map(h => payload[h] || '')`. -/
def handleAddFinancingRecord (sheet : Sheet) (p : Payload)
    (idSuffix now : String) (fileUrls : Payload) : Sheet × Except String Unit :=
  let newId := "FIN-" ++ idSuffix
  let p1 := setP p "finance_id" newId
  let p2 := setP p1 "created_on" now
  let p3 := setP p2 "last_updated" now
  let p4 := fileUrls.foldl (fun acc kv => setP acc kv.1 kv.2) p3
  let headers := sheet.headD []
  (sheet ++ [headers.map (fun h => (lookupP p4 h).getD "")], .ok ())

/-- `handleUpdateFinancingRecord(payload)`. -/
def handleUpdateFinancingRecord (sheet : Sheet) (p : Payload) (now : String)
    (fileUrls : Payload) : Sheet × Except String Unit :=
  match lookupP p "finance_id" with
  | none => (sheet, .error "finance_id is required for update.")
  | some financeId =>
    if financeId = "" then (sheet, .error "finance_id is required for update.")
    else
      match findRowByHeaderValue sheet financeId "finance_id" with
      | .error e => (sheet, .error e)
      | .ok none =>
        (sheet, .error ("Financing record with ID " ++ financeId ++ " not found."))
      | .ok (some rowInfo) =>
        let p1 := setP p "last_updated" now
        let p2 := fileUrls.foldl (fun acc kv => setP acc kv.1 kv.2) p1
        (sheet.set (rowInfo.rowIndex - 1)
            (buildUpdatedRow rowInfo.headers rowInfo.rowData p2),
          .ok ())

/-- `handleDeleteFinancingRecord(payload)`. -/
def handleDeleteFinancingRecord (sheet : Sheet) (p : Payload) :
    Sheet × Except String Unit :=
  genericDelete SHEET_financingLedger sheet p "finance_id"

/-! ## Tasks and Directory modules -/

def handleAddTask (sheet : Sheet) (p : Payload) (idSuffix now : String) :
    Sheet × Except String Unit :=
  genericAdd sheet p "task-" "TaskID" none idSuffix now

def handleUpdateTask (sheet : Sheet) (p : Payload) (now : String) :
    Sheet × Except String Unit :=
  genericUpdate SHEET_tasks sheet p "TaskID" none now

def handleDeleteTask (sheet : Sheet) (p : Payload) : Sheet × Except String Unit :=
  genericDelete SHEET_tasks sheet p "TaskID"

def handleAddContact (sheet : Sheet) (p : Payload) (idSuffix now : String) :
    Sheet × Except String Unit :=
  genericAdd sheet p "con-" "ContactID" (some "Created On") idSuffix now

def handleUpdateContact (sheet : Sheet) (p : Payload) (now : String) :
    Sheet × Except String Unit :=
  genericUpdate SHEET_directory sheet p "ContactID" (some "Created On") now

def handleDeleteContact (sheet : Sheet) (p : Payload) : Sheet × Except String Unit :=
  genericDelete SHEET_directory sheet p "ContactID"

/-! ## The legacy Customer Service Hub module -/

/-- `a || b` on JS strings (`""` is the only falsy string). -/
def jsOr (a b : String) : String := if a = "" then b else a

/-- `obj[k] || ""`. -/
def valOf (p : Payload) (k : String) : String := (lookupP p k).getD ""

/-- `const [firstName = '', ...lastNameParts] = (fullName || "").split(" ")`,
with `lastName = lastNameParts.join(" ")`. -/
def splitFullName (fullName : String) : String × String :=
  match fullName.splitOn " " with
  | [] => ("", "")
  | first :: rest => (first, String.intercalate " " rest)

/-- `mapDataToSheetColumns(ticketId, formType, data, fileUrls)`: the
fixed 21-column Customer Service Hub row.  (The `formType` argument is
unused in the source as well; the category cell reads `data.formType`.)
`nowLocale` stands for `new Date().toLocaleString()`. -/
def mapDataToSheetColumns (ticketId : String) (_formType : String)
    (data : Payload) (fileUrls : Payload) (nowLocale : String) : List String :=
  let firstLast := splitFullName (valOf data "fullName")
  [ ticketId,
    valOf data "formType",
    jsOr (valOf data "issueDescription") "",
    firstLast.1,
    firstLast.2,
    jsOr (valOf data "email") "",
    jsOr (valOf data "phoneNumber") "",
    jsOr (valOf data "purchaseDate") "",
    jsOr (valOf data "invoiceNumber") "",
    jsOr (valOf data "purchaseAmount") "",
    jsOr (valOf data "last4Digits") "",
    jsOr (valOf data "product") "",
    jsOr (valOf data "storeOfPurchase") "",
    jsOr (valOf fileUrls "receipt") (jsOr (valOf data "receipt") ""),
    jsOr (valOf data "status") "New",
    jsOr (valOf data "officeNotes") "",
    jsOr (valOf fileUrls "file1") (jsOr (valOf data "file1") ""),
    jsOr (valOf fileUrls "file2") (jsOr (valOf data "file2") ""),
    jsOr (valOf fileUrls "file3") (jsOr (valOf data "file3") ""),
    jsOr (valOf fileUrls "file4") (jsOr (valOf data "file4") ""),
    jsOr (valOf data "Timestamp") nowLocale ]

/-- `createRecord(sheet, formType, formData, files)`: appends the mapped
row, then sends the confirmation e-mail — which may throw *after* the
row has been appended (`emailOutcome` is the outcome of
`sendEmailConfirmation`, an external service).  `ticketIdSuffix` stands
for `new Date().getTime()`. -/
def createRecord (sheet : Sheet) (formType : String) (formData : Payload)
    (fileUrls : Payload) (ticketIdSuffix nowLocale : String)
    (emailOutcome : Except String Unit) : Sheet × Except String Unit :=
  let ticketId := "TICKET-" ++ ticketIdSuffix
  let newRow := mapDataToSheetColumns ticketId formType formData fileUrls nowLocale
  let sheet' := sheet ++ [newRow]
  match emailOutcome with
  | .ok _ => (sheet', .ok ())
  | .error e => (sheet', .error e)

/-- `updateRecord(sheet, formData, files)`. -/
def updateRecord (sheet : Sheet) (formData : Payload) (fileUrls : Payload)
    (nowLocale : String) : Sheet × Except String Unit :=
  match lookupP formData "ticketId" with
  | none => (sheet, .error "Ticket ID is required for updating a record.")
  | some ticketId =>
    if ticketId = "" then
      (sheet, .error "Ticket ID is required for updating a record.")
    else
      match findRowById sheet ticketId "TicketID" with
      | none =>
        (sheet, .error ("Record with Ticket ID " ++ ticketId ++ " not found for update."))
      | some rowInfo =>
        let updatedRowData :=
          mapDataToSheetColumns ticketId (valOf formData "formType") formData
            fileUrls nowLocale
        (sheet.set (rowInfo.rowIndex - 1) updatedRowData, .ok ())

/-- `deleteRecord(sheet, ticketId)`: unlike the other handlers this one
returns its HTTP response directly — `{status:"error"}` on a miss
instead of throwing. -/
def deleteRecord (sheet : Sheet) (ticketId : String) : Sheet × ApiResponse :=
  match findRowById sheet ticketId "TicketID" with
  | some rowInfo => (sheet.eraseIdx (rowInfo.rowIndex - 1), .success ticketId)
  | none => (sheet, .error "Record not found for deletion.")

/-! ## Routing (`doPost` and the legacy `doGet` delete) -/

/-- The collection of sheets of the spreadsheet, by name. -/
abbrev SheetsMap := String → Option Sheet

/-- The header rows `getSheet` seeds when it has to insert a sheet. -/
def defaultSheetHeaders (name : String) : Option (List String) :=
  if name = SHEET_customerService then
    some ["TicketID", "Ticket Category", "Ticket Notes", "First Name", "Last Name",
      "Email Address", "Phone Number", "Date of Transaction", "Receipt Number",
      "Purchase Amount", "Last 4 Digits of Card", "Product", "Store Name",
      "Receipt File", "Status", "Office Notes", "File 1", "File 2", "File 3",
      "File 4", "Timestamp"]
  else if name = SHEET_tasks then
    some ["TaskID", "Task Name", "Due Date", "Task Description", "Contact",
      "Account", "Status", "Priority", "Notes", "Completed On"]
  else if name = SHEET_directory then
    some ["ContactID", "First Name", "Last Name", "Phone Number", "Email Address",
      "Address", "Company/Organization", "Job Title", "Department", "Status",
      "Notes", "Created On"]
  else if name = SHEET_accounts then
    some ["AccountID", "Location Name", "Account Type", "Contact Person", "Phone",
      "Email", "Address", "Status", "Notes", "File Upload", "Timestamp"]
  else if name = SHEET_products then
    some ["Items", "Colors", "Category", "Sub-Category"]
  else if name = SHEET_financingLedger then
    some ["finance_id", "customer_name", "customer_email", "customer_phone",
      "product_description", "receipt_number", "sale_date", "sales_rep",
      "store_name", "total_sale_amount", "down_payment_amount", "financed_amount",
      "installment_count", "installment_amount", "payment_method",
      "payment_due_day", "total_amount_paid", "current_balance_due",
      "agreement_status", "notes_log", "agreement_file", "id_card_file_url",
      "receipt_file", "created_on", "last_updated"]
  else if name = SHEET_users then
    some ["UserID", "Name", "Email", "Phone", "AccessCode", "Role", "Location"]
  else none

/-- `getSheet(sheetName)`: an existing sheet, or a freshly inserted one
holding just its seeded header row. -/
def getSheetData (sheets : SheetsMap) (name : String) : Sheet :=
  match sheets name with
  | some sheet => sheet
  | none =>
    match defaultSheetHeaders name with
    | some headers => [headers]
    | none => []

/-- Store a sheet back into the spreadsheet. -/
def setSheet (sheets : SheetsMap) (name : String) (sheet : Sheet) : SheetsMap :=
  fun n => if n = name then some sheet else sheets n

/-- A parsed POST body.  `action = none` models a missing/falsy
`request.action`; likewise for `formType`. -/
structure PostRequest where
  action : Option String
  payload : Payload
  formType : Option String
  formData : Payload
  deriving Repr

/-- The environment-supplied results of the external collaborators a
write request may consult: the random id suffix, `new Date()` (ISO and
locale forms), the Drive upload results, and the outcome of the
confirmation e-mail. -/
structure PostEnv where
  idSuffix : String
  now : String
  nowLocale : String
  fileUrls : Payload
  accountFileUrl : Option String
  emailOutcome : Except String Unit

/-- The tail of `doPost`: persist the handler's sheet, wrap the outcome
as the JSON response, and — only when `response.status === 'success'`
(and a sheet was routed) — clear the cache key of the affected
collection.  The third component is the invalidated key, if any. -/
def finishWrite (sheets : SheetsMap) (sheetToInvalidate : String)
    (r : Sheet × Except String Unit) : SheetsMap × ApiResponse × Option String :=
  match r.2 with
  | .ok _ => (setSheet sheets sheetToInvalidate r.1, .success "", some sheetToInvalidate)
  | .error e => (setSheet sheets sheetToInvalidate r.1, .error e, none)

/-- `doPost(e)`: route the action to its handler, then invalidate the
affected collection's cache key on a success response; any thrown error
is caught and returned as `{status:"error", message}` with no
invalidation. -/
def doPost (sheets : SheetsMap) (req : PostRequest) (env : PostEnv) :
    SheetsMap × ApiResponse × Option String :=
  match req.action with
  | some action =>
    if action = "addAccount" || action = "updateAccount" || action = "deleteAccount" then
      let sheet := getSheetData sheets SHEET_accounts
      let r :=
        if action = "addAccount" then
          handleAddAccount sheet req.payload env.idSuffix env.now
            ((env.accountFileUrl).getD "")
        else if action = "updateAccount" then
          handleUpdateAccount sheet req.payload env.now env.accountFileUrl
        else handleDeleteAccount sheet req.payload
      finishWrite sheets SHEET_accounts r
    else if action = "addTask" || action = "updateTask" || action = "deleteTask" then
      let sheet := getSheetData sheets SHEET_tasks
      let r :=
        if action = "addTask" then handleAddTask sheet req.payload env.idSuffix env.now
        else if action = "updateTask" then handleUpdateTask sheet req.payload env.now
        else handleDeleteTask sheet req.payload
      finishWrite sheets SHEET_tasks r
    else if action = "addContact" || action = "updateContact" || action = "deleteContact" then
      let sheet := getSheetData sheets SHEET_directory
      let r :=
        if action = "addContact" then
          handleAddContact sheet req.payload env.idSuffix env.now
        else if action = "updateContact" then
          handleUpdateContact sheet req.payload env.now
        else handleDeleteContact sheet req.payload
      finishWrite sheets SHEET_directory r
    else if action = "addFinancingRecord" || action = "updateFinancingRecord"
        || action = "deleteFinancingRecord" then
      let sheet := getSheetData sheets SHEET_financingLedger
      let r :=
        if action = "addFinancingRecord" then
          handleAddFinancingRecord sheet req.payload env.idSuffix env.now env.fileUrls
        else if action = "updateFinancingRecord" then
          handleUpdateFinancingRecord sheet req.payload env.now env.fileUrls
        else handleDeleteFinancingRecord sheet req.payload
      finishWrite sheets SHEET_financingLedger r
    else (sheets, .error ("Unknown POST action: " ++ action), none)
  | none =>
    match req.formType with
    | some formType =>
      if formType = "create" || formType = "update" then
        let sheet := getSheetData sheets SHEET_customerService
        let r :=
          if formType = "update" then
            updateRecord sheet req.formData env.fileUrls env.nowLocale
          else
            createRecord sheet formType req.formData env.fileUrls env.idSuffix
              env.nowLocale env.emailOutcome
        finishWrite sheets SHEET_customerService r
      else (sheets, .error "Invalid POST request format.", none)
    | none => (sheets, .error "Invalid POST request format.", none)

/-- The legacy delete route of `doGet` (`action === 'delete'`): run
`deleteRecord`, then `clearCache(SHEET_NAMES.customerService)` —
unconditionally, whatever response `deleteRecord` produced.  The third
component is the invalidated cache key. -/
def doGetDelete (sheets : SheetsMap) (ticketId : String) :
    SheetsMap × ApiResponse × Option String :=
  let csSheet := getSheetData sheets SHEET_customerService
  let r := deleteRecord csSheet ticketId
  (setSheet sheets SHEET_customerService r.1, r.2, some SHEET_customerService)

/-! ## The tabular GET payload (`{headers, rows}`) -/

/-- The default `doGet` fetch for tabular sheets (Accounts, Tasks,
Directory, Financing, …): `headers = data.shift() || []` and the
remaining rows are returned as `rows`. -/
def tabularSheetData (values : Sheet) : List String × List (List String) :=
  (values.headD [], values.tail)

/-- One record rebuilt from a row, using the headers as field names
position by position (the construction the Customer Service Hub branch
of `doGet` and the client's `parseRows` both use). -/
def recordOfRow (headers row : List String) : Payload :=
  headers.zip row

/-- Rebuild the whole record set from a `{headers, rows}` payload. -/
def reconstructRecords (payload : List String × List (List String)) : List Payload :=
  payload.2.map (recordOfRow payload.1)

/-- Serialize a record into a sheet row under the given headers —
`headers.map(h => record[h] || '')`, as `genericAdd` writes rows. -/
def rowOfRecord (headers : List String) (r : Payload) : List String :=
  headers.map (fun h => (lookupP r h).getD "")

/-! ## Stampede protection: interleaved callers of `getDataWithCache`

For the contention-window property, `C` concurrent requests for the same
cold key are modelled as a transition system.  Each caller executes the
body of `getDataWithCache` as a sequence of atomic steps — the fast-path
cache read; acquiring the script lock (exclusive; a caller waits while
another holds it); the double-check read; running `fetchFunction`;
`cache.put`; releasing the lock in the `finally` block.  Within one
contention window the entry does not expire and no invalidation runs, so
the shared cache for the key is `Option String`; `fetchCount` counts the
executions of `fetchFunction`, whose result is the fixed payload `p`. -/

/-- The program counter of one caller inside `getDataWithCache`. -/
inductive CallerPC where
  | start
  | waitLock
  | checkLocked
  | fetching
  | putting (v : String)
  | releasing (v : String)
  | done (v : String)
  deriving Repr, DecidableEq

/-- The shared state of `n` concurrent callers: the cached payload for
the key (if populated), the current holder of the script lock, the
number of `fetchFunction` executions, and each caller's position. -/
structure CacheSys (n : Nat) where
  cache : Option String
  lockHolder : Option (Fin n)
  fetchCount : Nat
  pcs : Fin n → CallerPC

/-- All callers arrive while the key is absent: cold cache, free lock. -/
def initCacheSys (n : Nat) : CacheSys n :=
  ⟨none, none, 0, fun _ => .start⟩

/-- One atomic step of one caller, following the body of
`getDataWithCache` line by line. -/
inductive CacheStep (p : String) : CacheSys n → CacheSys n → Prop where
  | checkHit (s : CacheSys n) (i : Fin n) (v : String) :
      s.pcs i = .start → s.cache = some v →
      CacheStep p s { s with pcs := Function.update s.pcs i (.done v) }
  | checkMiss (s : CacheSys n) (i : Fin n) :
      s.pcs i = .start → s.cache = none →
      CacheStep p s { s with pcs := Function.update s.pcs i .waitLock }
  | acquire (s : CacheSys n) (i : Fin n) :
      s.pcs i = .waitLock → s.lockHolder = none →
      CacheStep p s
        { s with lockHolder := some i, pcs := Function.update s.pcs i .checkLocked }
  | recheckHit (s : CacheSys n) (i : Fin n) (v : String) :
      s.pcs i = .checkLocked → s.cache = some v →
      CacheStep p s { s with pcs := Function.update s.pcs i (.releasing v) }
  | recheckMiss (s : CacheSys n) (i : Fin n) :
      s.pcs i = .checkLocked → s.cache = none →
      CacheStep p s { s with pcs := Function.update s.pcs i .fetching }
  | fetch (s : CacheSys n) (i : Fin n) :
      s.pcs i = .fetching →
      CacheStep p s
        { s with fetchCount := s.fetchCount + 1,
                 pcs := Function.update s.pcs i (.putting p) }
  | put (s : CacheSys n) (i : Fin n) (v : String) :
      s.pcs i = .putting v →
      CacheStep p s
        { s with cache := some v, pcs := Function.update s.pcs i (.releasing v) }
  | release (s : CacheSys n) (i : Fin n) (v : String) :
      s.pcs i = .releasing v →
      CacheStep p s
        { s with lockHolder := none, pcs := Function.update s.pcs i (.done v) }

/-- A caller is inside the lock-protected critical section. -/
def inCritical : CallerPC → Prop
  | .checkLocked => True
  | .fetching => True
  | .putting _ => True
  | .releasing _ => True
  | _ => False

/-- A caller is between `fetchFunction` returning and `cache.put`. -/
def isPutting : CallerPC → Prop
  | .putting _ => True
  | _ => False

/-- The inductive invariant of the contention window. -/
structure CacheSysInv (p : String) (s : CacheSys n) : Prop where
  cacheVal : ∀ v, s.cache = some v → v = p
  pcVal : ∀ i v,
    s.pcs i = .putting v ∨ s.pcs i = .releasing v ∨ s.pcs i = .done v → v = p
  lockCrit : ∀ i, s.lockHolder = some i ↔ inCritical (s.pcs i)
  fetchCache : ∀ i, s.pcs i = .fetching → s.cache = none
  countZero : s.cache = none → (∀ i, ¬ isPutting (s.pcs i)) → s.fetchCount = 0
  countOne : s.cache.isSome ∨ (∃ i, isPutting (s.pcs i)) → s.fetchCount = 1
  doneCache : ∀ i v, s.pcs i = .releasing v ∨ s.pcs i = .done v → s.cache.isSome

lemma isPutting_inCritical {pc : CallerPC} (h : isPutting pc) : inCritical pc := by
  cases pc <;> simp_all [isPutting, inCritical]

lemma critical_unique {n : Nat} {s : CacheSys n}
    (hlc : ∀ i, s.lockHolder = some i ↔ inCritical (s.pcs i)) {i j : Fin n}
    (hi : inCritical (s.pcs i)) (hj : inCritical (s.pcs j)) : i = j := by
  have h1 := (hlc i).mpr hi
  have h2 := (hlc j).mpr hj
  rw [h1] at h2
  exact (Option.some.injEq i j ▸ h2).symm ▸ rfl

lemma cacheSysInv_init (n : Nat) (p : String) : CacheSysInv p (initCacheSys n) := by
  refine ⟨?_, ?_, ?_, ?_, ?_, ?_, ?_⟩ <;>
    simp [initCacheSys, inCritical, isPutting]


lemma cacheSysInv_step {n : Nat} {p : String} {s s' : CacheSys n}
    (h : CacheStep p s s') (hinv : CacheSysInv p s) : CacheSysInv p s' := by
  obtain ⟨hcv, hpv, hlc, hfc, hc0, hc1, hdc⟩ := hinv
  cases h with
  | checkHit i v hpc hcache =>
    refine ⟨hcv, ?_, ?_, ?_, ?_, ?_, ?_⟩
    · intro j w hj
      rcases eq_or_ne j i with rfl | hne
      · simp only [Function.update_same] at hj
        rcases hj with hj | hj | hj
        · exact absurd hj (by simp)
        · exact absurd hj (by simp)
        · injection hj with h
          exact h ▸ hcv v hcache
      · simp only [Function.update_noteq hne] at hj
        exact hpv j w hj
    · intro j
      rcases eq_or_ne j i with rfl | hne
      · simp only [Function.update_same]
        constructor
        · intro hl
          have hcrit := (hlc j).mp hl
          rw [hpc] at hcrit
          exact absurd hcrit (by simp [inCritical])
        · intro hcrit
          exact absurd hcrit (by simp [inCritical])
      · simp only [Function.update_noteq hne]
        exact hlc j
    · intro j hj
      rcases eq_or_ne j i with rfl | hne
      · simp only [Function.update_same] at hj
        exact absurd hj (by simp)
      · simp only [Function.update_noteq hne] at hj
        exact hfc j hj
    · intro hnone
      rw [hcache] at hnone
      exact absurd hnone (by simp)
    · intro _
      exact hc1 (Or.inl (by rw [hcache]; rfl))
    · intro j w _
      show s.cache.isSome = true
      rw [hcache]; rfl
  | checkMiss i hpc hcache =>
    refine ⟨hcv, ?_, ?_, ?_, ?_, ?_, ?_⟩
    · intro j w hj
      rcases eq_or_ne j i with rfl | hne
      · simp only [Function.update_same] at hj
        rcases hj with hj | hj | hj <;> exact absurd hj (by simp)
      · simp only [Function.update_noteq hne] at hj
        exact hpv j w hj
    · intro j
      rcases eq_or_ne j i with rfl | hne
      · simp only [Function.update_same]
        constructor
        · intro hl
          have hcrit := (hlc j).mp hl
          rw [hpc] at hcrit
          exact absurd hcrit (by simp [inCritical])
        · intro hcrit
          exact absurd hcrit (by simp [inCritical])
      · simp only [Function.update_noteq hne]
        exact hlc j
    · intro j hj
      rcases eq_or_ne j i with rfl | hne
      · simp only [Function.update_same] at hj
        exact absurd hj (by simp)
      · simp only [Function.update_noteq hne] at hj
        exact hfc j hj
    · intro _ hnoput
      apply hc0 hcache
      intro j
      rcases eq_or_ne j i with rfl | hne
      · rw [hpc]
        simp [isPutting]
      · have hnp := hnoput j
        simp only [Function.update_noteq hne] at hnp
        exact hnp
    · intro hor
      apply hc1
      rcases hor with hsome | ⟨j, hj⟩
      · exact Or.inl hsome
      · rcases eq_or_ne j i with rfl | hne
        · simp only [Function.update_same] at hj
          exact absurd hj (by simp [isPutting])
        · simp only [Function.update_noteq hne] at hj
          exact Or.inr ⟨j, hj⟩
    · intro j w hj
      rcases eq_or_ne j i with rfl | hne
      · simp only [Function.update_same] at hj
        rcases hj with hj | hj <;> exact absurd hj (by simp)
      · simp only [Function.update_noteq hne] at hj
        exact hdc j w hj
  | acquire i hpc hlock =>
    refine ⟨hcv, ?_, ?_, ?_, ?_, ?_, ?_⟩
    · intro j w hj
      rcases eq_or_ne j i with rfl | hne
      · simp only [Function.update_same] at hj
        rcases hj with hj | hj | hj <;> exact absurd hj (by simp)
      · simp only [Function.update_noteq hne] at hj
        exact hpv j w hj
    · intro j
      rcases eq_or_ne j i with rfl | hne
      · simp only [Function.update_same]
        constructor
        · intro _
          simp [inCritical]
        · intro _
          trivial
      · simp only [Function.update_noteq hne]
        constructor
        · intro hl
          have : i = j := Option.some.inj hl
          exact absurd this.symm hne
        · intro hcrit
          have := (hlc j).mpr hcrit
          rw [hlock] at this
          exact absurd this (by simp)
    · intro j hj
      rcases eq_or_ne j i with rfl | hne
      · simp only [Function.update_same] at hj
        exact absurd hj (by simp)
      · simp only [Function.update_noteq hne] at hj
        exact hfc j hj
    · intro hnone hnoput
      apply hc0 hnone
      intro j
      rcases eq_or_ne j i with rfl | hne
      · rw [hpc]
        simp [isPutting]
      · have hnp := hnoput j
        simp only [Function.update_noteq hne] at hnp
        exact hnp
    · intro hor
      apply hc1
      rcases hor with hsome | ⟨j, hj⟩
      · exact Or.inl hsome
      · rcases eq_or_ne j i with rfl | hne
        · simp only [Function.update_same] at hj
          exact absurd hj (by simp [isPutting])
        · simp only [Function.update_noteq hne] at hj
          exact Or.inr ⟨j, hj⟩
    · intro j w hj
      rcases eq_or_ne j i with rfl | hne
      · simp only [Function.update_same] at hj
        rcases hj with hj | hj <;> exact absurd hj (by simp)
      · simp only [Function.update_noteq hne] at hj
        exact hdc j w hj
  | recheckHit i v hpc hcache =>
    refine ⟨hcv, ?_, ?_, ?_, ?_, ?_, ?_⟩
    · intro j w hj
      rcases eq_or_ne j i with rfl | hne
      · simp only [Function.update_same] at hj
        rcases hj with hj | hj | hj
        · exact absurd hj (by simp)
        · injection hj with h
          exact h ▸ hcv v hcache
        · exact absurd hj (by simp)
      · simp only [Function.update_noteq hne] at hj
        exact hpv j w hj
    · intro j
      rcases eq_or_ne j i with rfl | hne
      · simp only [Function.update_same]
        constructor
        · intro _
          simp [inCritical]
        · intro _
          exact (hlc j).mpr (by rw [hpc]; simp [inCritical])
      · simp only [Function.update_noteq hne]
        exact hlc j
    · intro j hj
      rcases eq_or_ne j i with rfl | hne
      · simp only [Function.update_same] at hj
        exact absurd hj (by simp)
      · simp only [Function.update_noteq hne] at hj
        exact hfc j hj
    · intro hnone
      rw [hcache] at hnone
      exact absurd hnone (by simp)
    · intro _
      exact hc1 (Or.inl (by rw [hcache]; rfl))
    · intro j w _
      show s.cache.isSome = true
      rw [hcache]; rfl
  | recheckMiss i hpc hcache =>
    refine ⟨hcv, ?_, ?_, ?_, ?_, ?_, ?_⟩
    · intro j w hj
      rcases eq_or_ne j i with rfl | hne
      · simp only [Function.update_same] at hj
        rcases hj with hj | hj | hj <;> exact absurd hj (by simp)
      · simp only [Function.update_noteq hne] at hj
        exact hpv j w hj
    · intro j
      rcases eq_or_ne j i with rfl | hne
      · simp only [Function.update_same]
        constructor
        · intro _
          simp [inCritical]
        · intro _
          exact (hlc j).mpr (by rw [hpc]; simp [inCritical])
      · simp only [Function.update_noteq hne]
        exact hlc j
    · intro j hj
      exact hcache
    · intro _ hnoput
      apply hc0 hcache
      intro j
      rcases eq_or_ne j i with rfl | hne
      · rw [hpc]
        simp [isPutting]
      · have hnp := hnoput j
        simp only [Function.update_noteq hne] at hnp
        exact hnp
    · intro hor
      apply hc1
      rcases hor with hsome | ⟨j, hj⟩
      · exact Or.inl hsome
      · rcases eq_or_ne j i with rfl | hne
        · simp only [Function.update_same] at hj
          exact absurd hj (by simp [isPutting])
        · simp only [Function.update_noteq hne] at hj
          exact Or.inr ⟨j, hj⟩
    · intro j w hj
      rcases eq_or_ne j i with rfl | hne
      · simp only [Function.update_same] at hj
        rcases hj with hj | hj <;> exact absurd hj (by simp)
      · simp only [Function.update_noteq hne] at hj
        exact hdc j w hj
  | fetch i hpc =>
    refine ⟨hcv, ?_, ?_, ?_, ?_, ?_, ?_⟩
    · intro j w hj
      rcases eq_or_ne j i with rfl | hne
      · simp only [Function.update_same] at hj
        rcases hj with hj | hj | hj
        · injection hj with h
          exact h.symm
        · exact absurd hj (by simp)
        · exact absurd hj (by simp)
      · simp only [Function.update_noteq hne] at hj
        exact hpv j w hj
    · intro j
      rcases eq_or_ne j i with rfl | hne
      · simp only [Function.update_same]
        constructor
        · intro _
          simp [inCritical]
        · intro _
          exact (hlc j).mpr (by rw [hpc]; simp [inCritical])
      · simp only [Function.update_noteq hne]
        exact hlc j
    · intro j hj
      exact hfc i hpc
    · intro _ hnoput
      have hnp := hnoput i
      simp only [Function.update_same] at hnp
      exact absurd (by simp [isPutting] : isPutting (CallerPC.putting p)) hnp
    · intro _
      have hzero : s.fetchCount = 0 := by
        apply hc0 (hfc i hpc)
        intro j hput
        have hji : j = i :=
          critical_unique hlc (isPutting_inCritical hput)
            (by rw [hpc]; simp [inCritical])
        rw [hji, hpc] at hput
        exact absurd hput (by simp [isPutting])
      show s.fetchCount + 1 = 1
      rw [hzero]
    · intro j w hj
      rcases eq_or_ne j i with rfl | hne
      · simp only [Function.update_same] at hj
        rcases hj with hj | hj <;> exact absurd hj (by simp)
      · simp only [Function.update_noteq hne] at hj
        exact hdc j w hj
  | put i v hpc =>
    refine ⟨?_, ?_, ?_, ?_, ?_, ?_, ?_⟩
    · intro w hw
      have hw' : some v = some w := hw
      have h := Option.some.inj hw'
      exact h ▸ hpv i v (Or.inl hpc)
    · intro j w hj
      rcases eq_or_ne j i with rfl | hne
      · simp only [Function.update_same] at hj
        rcases hj with hj | hj | hj
        · exact absurd hj (by simp)
        · injection hj with h
          exact h ▸ hpv j v (Or.inl hpc)
        · exact absurd hj (by simp)
      · simp only [Function.update_noteq hne] at hj
        exact hpv j w hj
    · intro j
      rcases eq_or_ne j i with rfl | hne
      · simp only [Function.update_same]
        constructor
        · intro _
          simp [inCritical]
        · intro _
          exact (hlc j).mpr (by rw [hpc]; simp [inCritical])
      · simp only [Function.update_noteq hne]
        exact hlc j
    · intro j hj
      rcases eq_or_ne j i with rfl | hne
      · simp only [Function.update_same] at hj
        exact absurd hj (by simp)
      · simp only [Function.update_noteq hne] at hj
        have hji : j = i :=
          critical_unique hlc (by rw [hj]; simp [inCritical])
            (by rw [hpc]; simp [inCritical])
        exact absurd hji hne
    · intro hnone
      exact absurd hnone (by simp)
    · intro _
      exact hc1 (Or.inr ⟨i, by rw [hpc]; simp [isPutting]⟩)
    · intro j w _
      rfl
  | release i v hpc =>
    refine ⟨hcv, ?_, ?_, ?_, ?_, ?_, ?_⟩
    · intro j w hj
      rcases eq_or_ne j i with rfl | hne
      · simp only [Function.update_same] at hj
        rcases hj with hj | hj | hj
        · exact absurd hj (by simp)
        · exact absurd hj (by simp)
        · injection hj with h
          exact h ▸ hpv j v (Or.inr (Or.inl hpc))
      · simp only [Function.update_noteq hne] at hj
        exact hpv j w hj
    · intro j
      constructor
      · intro hl
        exact absurd hl (by simp)
      · intro hcrit
        rcases eq_or_ne j i with rfl | hne
        · simp only [Function.update_same] at hcrit
          exact absurd hcrit (by simp [inCritical])
        · simp only [Function.update_noteq hne] at hcrit
          have hji : j = i :=
            critical_unique hlc hcrit (by rw [hpc]; simp [inCritical])
          exact absurd hji hne
    · intro j hj
      rcases eq_or_ne j i with rfl | hne
      · simp only [Function.update_same] at hj
        exact absurd hj (by simp)
      · simp only [Function.update_noteq hne] at hj
        exact hfc j hj
    · intro hnone
      have hsome := hdc i v (Or.inl hpc)
      have hnone' : s.cache = none := hnone
      rw [hnone'] at hsome
      exact absurd hsome (by simp)
    · intro _
      exact hc1 (Or.inl (hdc i v (Or.inl hpc)))
    · intro j w _
      exact hdc i v (Or.inl hpc)

lemma cacheSysInv_reachable {n : Nat} {p : String} {s : CacheSys n}
    (hreach : Relation.ReflTransGen (CacheStep p) (initCacheSys n) s) :
    CacheSysInv p s := by
  induction hreach with
  | refl => exact cacheSysInv_init n p
  | tail _ hstep ih => exact cacheSysInv_step hstep ih

/-- Claim C1. For every key, if `C` concurrent callers run
`getDataWithCache(k, fetchFn)` while no unexpired cache entry for `k`
exists (the cold initial state), then in any interleaving in which every
caller has finished, `fetchFunction` was executed exactly once across
all callers, and every caller returned the same payload `p`. -/
theorem fetch_runs_once_per_cold_key {n : Nat} {p : String} {s : CacheSys n}
    (hreach : Relation.ReflTransGen (CacheStep p) (initCacheSys n) s)
    (hn : 0 < n)
    (hdone : ∀ i, ∃ v, s.pcs i = CallerPC.done v) :
    s.fetchCount = 1 ∧ ∀ i, s.pcs i = CallerPC.done p := by
  have hinv := cacheSysInv_reachable hreach
  obtain ⟨v0, hv0⟩ := hdone ⟨0, hn⟩
  have hsome : s.cache.isSome = true := hinv.doneCache _ v0 (Or.inr hv0)
  refine ⟨hinv.countOne (Or.inl hsome), ?_⟩
  intro i
  obtain ⟨w, hw⟩ := hdone i
  have : w = p := hinv.pcVal i w (Or.inr (Or.inr hw))
  rw [hw, this]

/-! A concrete single-caller run for the witness: the caller misses,
acquires the lock, re-checks, fetches, populates, and releases. -/

def wState0 : CacheSys 1 := ⟨none, none, 0, fun _ => .start⟩

def wState1 : CacheSys 1 := ⟨none, none, 0, fun _ => .waitLock⟩

def wState2 : CacheSys 1 := ⟨none, some 0, 0, fun _ => .checkLocked⟩

def wState3 : CacheSys 1 := ⟨none, some 0, 0, fun _ => .fetching⟩

def wState4 : CacheSys 1 := ⟨none, some 0, 1, fun _ => .putting "d"⟩

def wState5 : CacheSys 1 := ⟨some "d", some 0, 1, fun _ => .releasing "d"⟩

def wState6 : CacheSys 1 := ⟨some "d", none, 1, fun _ => .done "d"⟩

lemma updateFin1 (f : Fin 1 → CallerPC) (pc : CallerPC) :
    Function.update f 0 pc = fun _ => pc := by
  funext j
  have hj : j = 0 := Subsingleton.elim j 0
  subst hj
  rw [Function.update_same]

lemma wStep01 : CacheStep "d" wState0 wState1 := by
  have h := CacheStep.checkMiss (p := "d") (s := wState0) 0 rfl rfl
  rwa [show ({ wState0 with pcs := Function.update wState0.pcs 0 .waitLock } : CacheSys 1)
      = wState1 by
    show CacheSys.mk _ _ _ _ = _
    rw [updateFin1]
    rfl] at h

lemma wStep12 : CacheStep "d" wState1 wState2 := by
  have h := CacheStep.acquire (p := "d") (s := wState1) 0 rfl rfl
  rwa [show ({ wState1 with
      lockHolder := some 0,
      pcs := Function.update wState1.pcs 0 .checkLocked } : CacheSys 1) = wState2 by
    show CacheSys.mk _ _ _ _ = _
    rw [updateFin1]
    rfl] at h

lemma wStep23 : CacheStep "d" wState2 wState3 := by
  have h := CacheStep.recheckMiss (p := "d") (s := wState2) 0 rfl rfl
  rwa [show ({ wState2 with pcs := Function.update wState2.pcs 0 .fetching } : CacheSys 1)
      = wState3 by
    show CacheSys.mk _ _ _ _ = _
    rw [updateFin1]
    rfl] at h

lemma wStep34 : CacheStep "d" wState3 wState4 := by
  have h := CacheStep.fetch (p := "d") (s := wState3) 0 rfl
  rwa [show ({ wState3 with
      fetchCount := wState3.fetchCount + 1,
      pcs := Function.update wState3.pcs 0 (.putting "d") } : CacheSys 1) = wState4 by
    show CacheSys.mk _ _ _ _ = _
    rw [updateFin1]
    rfl] at h

lemma wStep45 : CacheStep "d" wState4 wState5 := by
  have h := CacheStep.put (p := "d") (s := wState4) 0 "d" rfl
  rwa [show ({ wState4 with
      cache := some "d",
      pcs := Function.update wState4.pcs 0 (.releasing "d") } : CacheSys 1) = wState5 by
    show CacheSys.mk _ _ _ _ = _
    rw [updateFin1]
    rfl] at h

lemma wStep56 : CacheStep "d" wState5 wState6 := by
  have h := CacheStep.release (p := "d") (s := wState5) 0 "d" rfl
  rwa [show ({ wState5 with
      lockHolder := none,
      pcs := Function.update wState5.pcs 0 (.done "d") } : CacheSys 1) = wState6 by
    show CacheSys.mk _ _ _ _ = _
    rw [updateFin1]
    rfl] at h

lemma wReach : Relation.ReflTransGen (CacheStep "d") (initCacheSys 1) wState6 := by
  have h0 : initCacheSys 1 = wState0 := rfl
  rw [h0]
  exact .head wStep01 (.head wStep12 (.head wStep23 (.head wStep34
    (.head wStep45 (.single wStep56)))))

/-- Witness for C1: the single-caller cold run ends with exactly one
fetch and the caller holding the fetched payload. -/
theorem fetch_runs_once_per_cold_key_witness :
    wState6.fetchCount = 1 ∧ wState6.pcs 0 = CallerPC.done "d" := by
  have h := fetch_runs_once_per_cold_key (n := 1) (p := "d") wReach
    (by decide) (fun i => ⟨"d", rfl⟩)
  exact ⟨h.1, h.2 0⟩

/-! ## C3 / C8: the `getOrPopulate` algorithm and its error path -/

/-- Claim C3. `getDataWithCache(key, fetchFn)` follows the algorithm of
the spec: a present (unexpired) entry is returned immediately without
touching the lock; on a miss the lock is acquired with the 30000 ms
bounded wait and the cache is re-checked — a now-present entry is
returned without invoking the fetch; otherwise the fetch runs, its
result is stored under the key with the fresh `CACHE_EXPIRATION_SECONDS`
TTL, and that result is returned (releasing the lock either way). -/
theorem getDataWithCache_follows_algorithm (c1 : CacheStore) (t1 : Nat)
    (c2 : CacheStore) (t2 : Nat) (k d : String) :
    (∀ v, cacheGet c1 t1 k = some v →
      getDataWithCache c1 t1 c2 t2 k (.ok d)
        = ⟨.ok v, false, none, false, false, none⟩) ∧
    (cacheGet c1 t1 k = none →
      (∀ v, cacheGet c2 t2 k = some v →
        getDataWithCache c1 t1 c2 t2 k (.ok d)
          = ⟨.ok v, true, some 30000, true, false, none⟩) ∧
      (cacheGet c2 t2 k = none →
        getDataWithCache c1 t1 c2 t2 k (.ok d)
          = ⟨.ok d, true, some 30000, true, true, some (d, CACHE_EXPIRATION_SECONDS)⟩)) := by
  refine ⟨?_, ?_⟩
  · intro v hv
    unfold getDataWithCache
    rw [hv]
  · intro h1
    refine ⟨?_, ?_⟩
    · intro v hv
      unfold getDataWithCache
      rw [h1, hv]
    · intro h2
      unfold getDataWithCache
      rw [h1, h2]

/-- A one-entry cache holding `"v"` for the `Accounts` key (expiring at
instant 300), used by the witnesses. -/
def oneEntryCache : CacheStore :=
  fun k => if k = SHEET_accounts then some ("v", 300) else none

/-- The empty cache. -/
def emptyCache : CacheStore := fun _ => none

/-- Witness for C3: the three paths of the algorithm at concrete caches. -/
theorem getDataWithCache_follows_algorithm_witness :
    getDataWithCache oneEntryCache 0 emptyCache 0 SHEET_accounts (.ok "d")
      = ⟨.ok "v", false, none, false, false, none⟩ ∧
    getDataWithCache emptyCache 0 oneEntryCache 0 SHEET_accounts (.ok "d")
      = ⟨.ok "v", true, some 30000, true, false, none⟩ ∧
    getDataWithCache emptyCache 0 emptyCache 0 SHEET_accounts (.ok "d")
      = ⟨.ok "d", true, some 30000, true, true, some ("d", CACHE_EXPIRATION_SECONDS)⟩ := by
  refine ⟨?_, ?_, ?_⟩
  · exact (getDataWithCache_follows_algorithm oneEntryCache 0 emptyCache 0
      SHEET_accounts "d").1 "v" rfl
  · exact ((getDataWithCache_follows_algorithm emptyCache 0 oneEntryCache 0
      SHEET_accounts "d").2 rfl).1 "v" rfl
  · exact ((getDataWithCache_follows_algorithm emptyCache 0 emptyCache 0
      SHEET_accounts "d").2 rfl).2 rfl

/-- Claim C8. If `fetchFunction` throws inside `getDataWithCache` (both
cache checks having missed), the lock — which was acquired — is released
by the `finally` block, no cache entry is written (the cache is exactly
as it stood), and the error propagates through `doGet`'s catch as a
`{status:"error"}` response. -/
theorem fetch_error_keeps_cache_and_releases_lock (c1 : CacheStore) (t1 : Nat)
    (c2 : CacheStore) (t2 : Nat) (k msg : String)
    (h1 : cacheGet c1 t1 k = none) (h2 : cacheGet c2 t2 k = none) :
    getDataWithCache c1 t1 c2 t2 k (.error msg)
      = ⟨.error msg, true, some 30000, true, true, none⟩ ∧
    applyStored c2 t2 k (getDataWithCache c1 t1 c2 t2 k (.error msg)).stored = c2 ∧
    doGetData c1 t1 c2 t2 k (.error msg) = .error msg := by
  have hrun : getDataWithCache c1 t1 c2 t2 k (.error msg)
      = ⟨.error msg, true, some 30000, true, true, none⟩ := by
    unfold getDataWithCache
    rw [h1, h2]
  refine ⟨hrun, ?_, ?_⟩
  · rw [hrun]
    rfl
  · unfold doGetData
    rw [hrun]

/-- Witness for C8: a throwing fetch on a cold key at concrete caches. -/
theorem fetch_error_keeps_cache_and_releases_lock_witness :
    getDataWithCache emptyCache 0 emptyCache 0 SHEET_accounts (.error "boom")
      = ⟨.error "boom", true, some 30000, true, true, none⟩ ∧
    applyStored emptyCache 0 SHEET_accounts
      (getDataWithCache emptyCache 0 emptyCache 0 SHEET_accounts (.error "boom")).stored
      = emptyCache ∧
    doGetData emptyCache 0 emptyCache 0 SHEET_accounts (.error "boom")
      = .error "boom" :=
  fetch_error_keeps_cache_and_releases_lock emptyCache 0 emptyCache 0
    SHEET_accounts "boom" rfl rfl

/-! ## C4 / C5: the sync coordinator -/

/-- Claim C4. One `withSyncStatus(action)` call: invocation increments
the pending counter and sets `syncing` with the count message
(pluralized for 1 vs more); a resolve decrements the counter and yields
`success` exactly when it reaches 0, staying `syncing` with the updated
count message otherwise; a rejection decrements the counter, sets
`error` with the message derived from the rejection reason, and the
rejection is re-thrown. -/
theorem withSyncStatus_contract (s : SyncState) (e : String) :
    (syncStart s).pending = s.pending + 1 ∧
    (syncStart s).status = SyncStatus.syncing ∧
    (syncStart s).message = savingMessage (s.pending + 1) ∧
    savingMessage 1 = "Saving 1 change..." ∧
    (∀ n : Int, n > 1 → savingMessage n = "Saving " ++ toString n ++ " changes...") ∧
    (syncResolve s).pending = s.pending - 1 ∧
    ((syncResolve s).status = SyncStatus.success ↔ s.pending - 1 = 0) ∧
    (s.pending - 1 ≠ 0 →
      (syncResolve s).status = SyncStatus.syncing ∧
      (syncResolve s).message = savingMessage (s.pending - 1)) ∧
    (syncReject e s).pending = s.pending - 1 ∧
    (syncReject e s).status = SyncStatus.error ∧
    (syncReject e s).message = e ∧
    withSyncStatus s (.ok ()) = (syncResolve (syncStart s), .ok ()) ∧
    withSyncStatus s (.error e) = (syncReject e (syncStart s), .error e) := by
  refine ⟨rfl, rfl, rfl, by decide, ?_, ?_, ?_, ?_, rfl, rfl, rfl, rfl, rfl⟩
  · intro n hn
    unfold savingMessage
    rw [if_pos hn, String.append_assoc, String.append_assoc]
    rfl
  · by_cases h0 : s.pending - 1 = 0 <;> simp [syncResolve, h0]
  · by_cases h0 : s.pending - 1 = 0 <;> simp [syncResolve, h0]
  · intro hne
    simp [syncResolve, hne]

/-- Witness for C4 at concrete states. -/
theorem withSyncStatus_contract_witness :
    (syncStart ⟨0, .idle, ""⟩).pending = 1 ∧
    (syncStart ⟨0, .idle, ""⟩).message = "Saving 1 change..." ∧
    savingMessage 2 = "Saving 2 changes..." ∧
    ((syncResolve ⟨1, .syncing, "m"⟩).status = SyncStatus.success ↔ (1 : Int) - 1 = 0) ∧
    ((1 : Int) - 1 ≠ 0 ∨ True) ∧
    (syncReject "boom" ⟨1, .syncing, "m"⟩).status = SyncStatus.error ∧
    withSyncStatus ⟨0, .idle, ""⟩ (.error "boom")
      = (syncReject "boom" (syncStart ⟨0, .idle, ""⟩), .error "boom") := by
  have h := withSyncStatus_contract ⟨0, .idle, ""⟩ "boom"
  have h1 := withSyncStatus_contract (⟨1, .syncing, "m"⟩ : SyncState) "boom"
  refine ⟨h.1, ?_, ?_, h1.2.2.2.2.2.2.1, Or.inr trivial, h1.2.2.2.2.2.2.2.2.2.1, h.2.2.2.2.2.2.2.2.2.2.2.2⟩
  · rw [h.2.2.1]
    decide
  · have := h.2.2.2.2.1 2 (by decide)
    rw [this]
    decide

lemma syncStep_pending (s : SyncState) (e : SyncEvent) :
    (syncStep s e).pending =
      s.pending + (if e matches .start then 1 else -1) := by
  cases e with
  | start => rfl
  | resolve =>
    by_cases h0 : s.pending - 1 = 0 <;> simp [syncStep, syncResolve, h0] <;> omega
  | reject m => simp [syncStep, syncReject]; omega

lemma foldl_syncStep_pending (tr : List SyncEvent) (s : SyncState) :
    (tr.foldl syncStep s).pending =
      s.pending + (countStarts tr : Int) - (countSettles tr : Int) := by
  induction tr generalizing s with
  | nil => simp [countStarts, countSettles]
  | cons e t ih =>
    rw [List.foldl_cons, ih, syncStep_pending]
    cases e <;> simp [countStarts, countSettles, List.countP_cons] <;> omega

/-- Claim C5 fails on the code: with two concurrent `run()` calls of
which one rejects, if the rejecting call settles first the terminal
status is `success`, not `error`, even though `M = 1 > 0` (the
resolve that settles last sees the counter reach 0 and overwrites the
`error` status).  The trace below is a valid complete interleaving:
both calls start, the first rejects, the second resolves. -/
def stampTrace : List SyncEvent :=
  [.start, .start, .reject "boom", .resolve]

/-- Counterexample to C5 as stated: after all calls of `stampTrace`
settle (N = 2, M = 1), the pending counter is 0 but the terminal status
is `success`, not `error`. -/
theorem syncTrace_error_iff_rejected_counterexample :
    ValidCompleteTrace stampTrace ∧
    countStarts stampTrace = 2 ∧
    countRejects stampTrace = 1 ∧
    countResolves stampTrace = 1 ∧
    (runSyncTrace stampTrace).pending = 0 ∧
    (runSyncTrace stampTrace).status = SyncStatus.success ∧
    ¬ (runSyncTrace stampTrace).status = SyncStatus.error := by
  decide

/-- Claim C5, amended: after all `N` concurrent calls settle the
pending counter is 0, but the terminal status is `error` if and only if
the *last call to settle* rejected — when `M > 0` rejections settle
before a final resolve, the terminal status is `success`. -/
theorem syncTrace_pending_zero_and_error_iff_last_reject (tr : List SyncEvent)
    (hbal : countStarts tr = countSettles tr) :
    (runSyncTrace tr).pending = 0 ∧
    ((runSyncTrace tr).status = SyncStatus.error ↔
      ∃ m, tr.getLast? = some (.reject m)) := by
  constructor
  · rw [runSyncTrace, foldl_syncStep_pending, hbal]
    simp [initSyncState]
  · rcases List.eq_nil_or_concat tr with rfl | ⟨t, e, rfl⟩
    · simp [runSyncTrace, initSyncState]
    · rw [List.concat_eq_append] at hbal ⊢
      have hrun : runSyncTrace (t ++ [e]) = syncStep (runSyncTrace t) e := by
        simp [runSyncTrace, List.foldl_append]
      have hlast : (t ++ [e]).getLast? = some e := by
        simp [List.getLast?_append]
      rw [hrun, hlast]
      cases e with
      | start =>
        simp only [syncStep, syncStart]
        constructor
        · intro h
          exact absurd h (by simp)
        · rintro ⟨m, hm⟩
          exact absurd hm (by simp)
      | resolve =>
        have hpend : (runSyncTrace t).pending = 1 := by
          have hs : countStarts (t ++ [.resolve]) = countStarts t := by
            simp [countStarts, List.countP_append]
          have hse : countSettles (t ++ [.resolve]) = countSettles t + 1 := by
            simp [countSettles, List.countP_append]
          rw [hs, hse] at hbal
          rw [runSyncTrace, foldl_syncStep_pending]
          simp [initSyncState]
          omega
        simp only [syncStep, syncResolve, hpend]
        norm_num
        constructor
        · intro h
          exact absurd h (by simp)
        · rintro ⟨m, hm⟩
          exact absurd hm (by simp)
      | reject m =>
        simp only [syncStep, syncReject]
        simp

/-- Witness for the amended C5: the counterexample trace satisfies the
amended statement — counter 0 and a non-`error` terminal status, since
its last settle is a resolve. -/
theorem syncTrace_pending_zero_and_error_iff_last_reject_witness :
    countStarts stampTrace = countSettles stampTrace ∧
    (runSyncTrace stampTrace).pending = 0 ∧
    ((runSyncTrace stampTrace).status = SyncStatus.error ↔
      ∃ m, stampTrace.getLast? = some (.reject m)) :=
  ⟨by decide, syncTrace_pending_zero_and_error_iff_last_reject stampTrace (by decide)⟩

/-! ## C6 / C7: the optimistic state manager -/

/-- Claim C6. For an update or status change on a collection of any
size, a failed mutation restores the displayed collection to exactly
the snapshot captured before the speculative edit — the whole list is
replaced by `originalAccounts`, not patched. -/
theorem failed_mutation_restores_snapshot (accounts : List Account)
    (editingAccount accountToUpdate : Account) (dataToSave : AccountData)
    (newStatus e1 e2 : String) :
    handleSaveUpdate accounts editingAccount dataToSave (.error e1) = accounts ∧
    handleStatusChange accounts accountToUpdate newStatus (.error e2) = accounts :=
  ⟨rfl, rfl⟩

/-- The concrete financing ledger used by the C7 counterexample. -/
def c7Records : List FinancingRecord := [⟨"42", []⟩, ⟨"7", []⟩]

/-- Counterexample to C7 as stated: deleting record `42` succeeds at
the backing store, the optimistic removal had already hidden it, but
when the success-triggered refetch fails, the handler's catch restores
the pre-delete snapshot — so record `42` is *present* in the displayed
collection again, not absent as the claim requires. -/
theorem delete_refetch_failure_counterexample :
    optimisticRemoveFinancing c7Records "42" = [⟨"7", []⟩] ∧
    handleDeleteFinancing c7Records "42" (.ok ()) (.error "network") = c7Records ∧
    (handleDeleteFinancing c7Records "42" (.ok ()) (.error "network")).any
      (fun r => r.finance_id == "42") = true := by
  decide

/-- Claim C7, amended: when the backing-store delete succeeds but the
success-triggered refetch rejects, the combined action rejects and the
handler restores the pre-delete snapshot, so the deleted record
*reappears* in the displayed collection; it stays visible until a later
successful refetch replaces the display with the authoritative
collection (from which it is gone).  Both delete handlers
(`FinancingLedgerView.handleDelete` and `AccountsView.handleDelete`)
behave this way. -/
theorem delete_refetch_failure_reverts (records : List FinancingRecord)
    (accounts : List Account) (account : Account) (id msg msg' : String)
    (fresh : List FinancingRecord) :
    handleDeleteFinancing records id (.ok ()) (.error msg) = records ∧
    handleDeleteAccountsView accounts account (.ok ()) (.error msg') = accounts ∧
    handleDeleteFinancing records id (.ok ()) (.ok fresh) = fresh :=
  ⟨rfl, rfl, rfl⟩

/-! ## C9: the tabular round trip -/

lemma lookupP_cons_self (k v : String) (t : Payload) :
    lookupP ((k, v) :: t) k = some v := by
  simp [lookupP, List.find?_cons_of_pos]

lemma lookupP_cons_ne (k v k' : String) (t : Payload) (h : k' ≠ k) :
    lookupP ((k, v) :: t) k' = lookupP t k' := by
  have : ((k, v).1 == k') = false := by
    simp [h.symm]
  simp [lookupP, List.find?_cons_of_neg, this]

lemma zip_rowOfRecord (r : Payload) (hnd : (r.map Prod.fst).Nodup) :
    (r.map Prod.fst).zip (rowOfRecord (r.map Prod.fst) r) = r := by
  induction r with
  | nil => rfl
  | cons kv t ih =>
    obtain ⟨k, v⟩ := kv
    rw [List.map_cons] at hnd
    rw [List.nodup_cons] at hnd
    obtain ⟨hk, hnd'⟩ := hnd
    have hhead : rowOfRecord (((k, v) :: t).map Prod.fst) ((k, v) :: t)
        = v :: (t.map Prod.fst).map (fun h => (lookupP t h).getD "") := by
      rw [List.map_cons, rowOfRecord, List.map_cons]
      rw [lookupP_cons_self]
      congr 1
      apply List.map_congr_left
      intro h hmem
      rw [lookupP_cons_ne k v h t (by rintro rfl; exact hk hmem)]
    rw [hhead, List.map_cons, List.zip_cons_cons]
    congr 1
    have := ih hnd'
    rwa [rowOfRecord] at this

/-- Claim C9. For a tabular resource whose records are keyed exactly by
the sheet's (duplicate-free) headers, the `{headers, rows}` payload
built by `doGet` satisfies: the rows are exactly the serialized data
rows (the header row is not among them as an extra element — and under
the further hypothesis that no data row spells out the header row, the
header row does not appear in `rows` at all), and rebuilding each
record from a row with the headers as field names, position by
position, yields exactly the original record set. -/
theorem tabular_payload_roundtrip (headers : List String) (recs : List Payload)
    (hnd : headers.Nodup) (hkeys : ∀ r ∈ recs, r.map Prod.fst = headers) :
    reconstructRecords
      (tabularSheetData (headers :: recs.map (rowOfRecord headers))) = recs ∧
    (tabularSheetData (headers :: recs.map (rowOfRecord headers))).1 = headers ∧
    (tabularSheetData (headers :: recs.map (rowOfRecord headers))).2
      = recs.map (rowOfRecord headers) ∧
    (headers ∉ recs.map (rowOfRecord headers) →
      headers ∉ (tabularSheetData (headers :: recs.map (rowOfRecord headers))).2) := by
  refine ⟨?_, rfl, rfl, fun h => h⟩
  show (recs.map (rowOfRecord headers)).map (recordOfRow headers) = recs
  rw [List.map_map]
  have hall : ∀ r ∈ recs, (recordOfRow headers ∘ rowOfRecord headers) r = r := by
    intro r hr
    have h := zip_rowOfRecord r (by rw [hkeys r hr]; exact hnd)
    rw [hkeys r hr] at h
    exact h
  rw [List.map_congr_left hall]
  simp

/-- Headers and a record set for the C9 witness. -/
def c9Headers : List String := ["AccountID", "Status", "Notes"]

/-- A two-record set keyed by `c9Headers`. -/
def c9Recs : List Payload :=
  [[("AccountID", "acc-1"), ("Status", "Active"), ("Notes", "")],
   [("AccountID", "acc-2"), ("Status", "Closed"), ("Notes", "vip")]]

/-- Witness for C9 at a concrete header list and record set. -/
theorem tabular_payload_roundtrip_witness :
    reconstructRecords
      (tabularSheetData (c9Headers :: c9Recs.map (rowOfRecord c9Headers))) = c9Recs ∧
    (c9Headers ∉ c9Recs.map (rowOfRecord c9Headers) →
      c9Headers ∉ (tabularSheetData
        (c9Headers :: c9Recs.map (rowOfRecord c9Headers))).2) := by
  have h := tabular_payload_roundtrip c9Headers c9Recs (by decide) (by decide)
  exact ⟨h.1, h.2.2.2⟩

/-! ## C2: mutation-driven cache invalidation -/

lemma finishWrite_invalidates_iff_success (sheets : SheetsMap) (name : String)
    (r : Sheet × Except String Unit) :
    ((finishWrite sheets name r).2.2.isSome = true ↔
      (finishWrite sheets name r).2.1.isSuccess = true) := by
  rcases r with ⟨sh, out⟩
  cases out <;> simp [finishWrite, ApiResponse.isSuccess]

/-- Counterexample to C2 as stated: the legacy Customer Service Hub
delete (a GET route) calls `clearCache` unconditionally.  Deleting a
ticket id that does not exist yields the `{status:"error"}` not-found
response, yet the cache key for the collection is invalidated anyway —
the cache is not left unchanged on this failed write. -/
theorem cache_invalidation_counterexample :
    (doGetDelete (fun _ => none) "TICKET-404").2.1
      = ApiResponse.error "Record not found for deletion." ∧
    ((doGetDelete (fun _ => none) "TICKET-404").2.1).isSuccess = false ∧
    (doGetDelete (fun _ => none) "TICKET-404").2.2 = some SHEET_customerService := by
  refine ⟨?_, ?_, rfl⟩ <;> decide

/-- Claim C2, amended: for every POST write (create, update, delete and
status-changing updates on all collections, including the legacy
create/update), the cache key of the affected collection is invalidated
if and only if the request's handler returns a success response — any
handler throw yields an error response and no invalidation.  The legacy
Customer Service Hub delete, however, is a GET route that clears the
collection's key unconditionally, even when the delete reports a
not-found error. -/
theorem doPost_invalidates_iff_success (sheets : SheetsMap) (req : PostRequest)
    (env : PostEnv) (ticketId : String) :
    ((doPost sheets req env).2.2.isSome = true ↔
      (doPost sheets req env).2.1.isSuccess = true) ∧
    (doGetDelete sheets ticketId).2.2 = some SHEET_customerService := by
  refine ⟨?_, rfl⟩
  rcases req with ⟨action, payload, formType, formData⟩
  cases action with
  | some a =>
    simp only [doPost]
    split_ifs <;>
      first
        | exact finishWrite_invalidates_iff_success _ _ _
        | simp [ApiResponse.isSuccess]
  | none =>
    cases formType with
    | some ft =>
      simp only [doPost]
      split_ifs <;>
        first
          | exact finishWrite_invalidates_iff_success _ _ _
          | simp [ApiResponse.isSuccess]
    | none => simp [doPost, ApiResponse.isSuccess]

/-! ## C10: server-side updates only overwrite columns named by the payload -/

lemma lookupP_map_overwrite (p : Payload) (k v k' : String) (hne : k' ≠ k) :
    lookupP (p.map (fun kv => if kv.1 == k then (k, v) else kv)) k'
      = lookupP p k' := by
  induction p with
  | nil => rfl
  | cons kv t ih =>
    obtain ⟨k0, v0⟩ := kv
    by_cases h0 : k0 = k
    · subst h0
      simp only [List.map_cons, if_pos (by simp : ((k0, v0).1 == k0) = true)]
      rw [lookupP_cons_ne k0 v k' _ hne, lookupP_cons_ne k0 v0 k' t hne]
      exact ih
    · simp only [List.map_cons, if_neg (by simpa using h0 : ¬ ((k0, v0).1 == k) = true)]
      by_cases hk' : k' = k0
      · subst hk'
        rw [lookupP_cons_self, lookupP_cons_self]
      · rw [lookupP_cons_ne k0 v0 k' _ hk', lookupP_cons_ne k0 v0 k' t hk']
        exact ih

lemma lookupP_append_single_ne (p : Payload) (k v k' : String) (hne : k' ≠ k) :
    lookupP (p ++ [(k, v)]) k' = lookupP p k' := by
  induction p with
  | nil =>
    rw [List.nil_append, lookupP_cons_ne k v k' [] hne]
  | cons kv t ih =>
    obtain ⟨k0, v0⟩ := kv
    by_cases hk' : k' = k0
    · subst hk'
      rw [List.cons_append, lookupP_cons_self, lookupP_cons_self]
    · rw [List.cons_append, lookupP_cons_ne k0 v0 k' _ hk',
        lookupP_cons_ne k0 v0 k' t hk', ih]

lemma lookupP_setP_ne (p : Payload) (k v k' : String) (hne : k' ≠ k) :
    lookupP (setP p k v) k' = lookupP p k' := by
  unfold setP
  split
  · exact lookupP_map_overwrite p k v k' hne
  · exact lookupP_append_single_ne p k v k' hne

lemma hasKey_setP_ne (p : Payload) (k v k' : String) (hne : k' ≠ k) :
    hasKey (setP p k v) k' = hasKey p k' := by
  unfold hasKey
  rw [lookupP_setP_ne p k v k' hne]

lemma buildUpdatedRow_getElem (headers rowData : List String) (p : Payload)
    (i : Nat) (h : String) (hh : headers[i]? = some h) :
    (buildUpdatedRow headers rowData p)[i]?
      = some (if hasKey p h then (lookupP p h).getD "" else rowData.getD i "") := by
  unfold buildUpdatedRow
  rw [List.getElem?_map, List.getElem?_enum, hh]
  rfl

lemma buildAccountUpdateRow_getElem (headers existingData : List String)
    (p : Payload) (now : String) (fileUrl : Option String) (i : Nat) (h : String)
    (hh : headers[i]? = some h) :
    (buildAccountUpdateRow headers existingData p now fileUrl)[i]?
      = some (accountUpdateCell p ((lookupP p "accountID").getD "") now fileUrl
          (existingData.getD i "") (headerMapLookup headers (jsTrim h))) := by
  unfold buildAccountUpdateRow
  rw [List.getElem?_map, List.getElem?_enum, hh]
  rfl

lemma accountUpdateCell_frame (p : Payload) (accountID now : String)
    (fileUrl : Option String) (existing key : String)
    (h1 : key ≠ "timestamp") (h2 : key ≠ "accountID") (h3 : key ≠ "fileUpload")
    (h4 : hasKey p key = false) :
    accountUpdateCell p accountID now fileUrl existing (some key) = existing := by
  simp [accountUpdateCell, h1, h2, h3, h4]

/-- The payload as `genericUpdate` sees it after the optional timestamp
stamping (`payload[autoTimestampKey] = new Date()`). -/
def stampedPayload (p : Payload) (autoTimestampKey : Option String)
    (now : String) : Payload :=
  match autoTimestampKey with
  | some k => setP p k now
  | none => p

/-- Claim C10.  A server-side update of an existing record by id —
`genericUpdate` (Tasks, Directory, and the financing update uses the
same row builder) and `handleUpdateAccount` — overwrites exactly the
columns named by the submitted payload (plus the auto-managed
timestamp / id / file-URL columns): the updated sheet replaces only the
found row with the built row, and in that row every column whose header
(for accounts: whose camel-cased field key) is not a payload key and
not auto-managed keeps its previous cell value, while payload-named
columns receive the payload value. -/
theorem update_overwrites_only_payload_columns
    (sheetName : String) (sheet : Sheet) (p : Payload) (idKey : String)
    (tsKey : Option String) (now id : String) (rowInfo : RowInfo)
    (hid : lookupP p idKey = some id) (hid' : id ≠ "")
    (hfind : findRowByHeaderValue sheet id idKey = .ok (some rowInfo))
    (asheet : Sheet) (paccount : Payload) (anow : String)
    (afileUrl : Option String) (arowInfo : RowInfo)
    (hafind : findRowById asheet ((lookupP paccount "accountID").getD "")
      "AccountID" = some arowInfo) :
    genericUpdate sheetName sheet p idKey tsKey now
      = (sheet.set (rowInfo.rowIndex - 1)
          (buildUpdatedRow rowInfo.headers rowInfo.rowData
            (stampedPayload p tsKey now)), .ok ()) ∧
    (∀ (i : Nat) (h : String), rowInfo.headers[i]? = some h →
      hasKey p h = false → tsKey ≠ some h →
      (buildUpdatedRow rowInfo.headers rowInfo.rowData
        (stampedPayload p tsKey now))[i]? = some (rowInfo.rowData.getD i "")) ∧
    (∀ (i : Nat) (h : String), rowInfo.headers[i]? = some h →
      hasKey p h = true → tsKey ≠ some h →
      (buildUpdatedRow rowInfo.headers rowInfo.rowData
        (stampedPayload p tsKey now))[i]? = some ((lookupP p h).getD "")) ∧
    handleUpdateAccount asheet paccount anow afileUrl
      = (asheet.set (arowInfo.rowIndex - 1)
          (buildAccountUpdateRow arowInfo.headers arowInfo.rowData paccount
            anow afileUrl), .ok ()) ∧
    (∀ (i : Nat) (h key : String), arowInfo.headers[i]? = some h →
      headerMapLookup arowInfo.headers (jsTrim h) = some key →
      key ≠ "timestamp" → key ≠ "accountID" → key ≠ "fileUpload" →
      hasKey paccount key = false →
      (buildAccountUpdateRow arowInfo.headers arowInfo.rowData paccount
        anow afileUrl)[i]? = some (arowInfo.rowData.getD i "")) := by
  have hstamp : ∀ h, tsKey ≠ some h →
      hasKey (stampedPayload p tsKey now) h = hasKey p h := by
    intro h hts
    cases tsKey with
    | none => rfl
    | some k =>
      exact hasKey_setP_ne p k now h (by rintro rfl; exact hts rfl)
  have hstampLookup : ∀ h, tsKey ≠ some h →
      lookupP (stampedPayload p tsKey now) h = lookupP p h := by
    intro h hts
    cases tsKey with
    | none => rfl
    | some k =>
      exact lookupP_setP_ne p k now h (by rintro rfl; exact hts rfl)
  refine ⟨?_, ?_, ?_, ?_, ?_⟩
  · simp only [genericUpdate, hid, hfind]
    rw [if_neg hid']
    rfl
  · intro i h hh hk hts
    rw [buildUpdatedRow_getElem rowInfo.headers rowInfo.rowData
      (stampedPayload p tsKey now) i h hh, hstamp h hts, hk]
    rfl
  · intro i h hh hk hts
    rw [buildUpdatedRow_getElem rowInfo.headers rowInfo.rowData
      (stampedPayload p tsKey now) i h hh, hstamp h hts, hk,
      hstampLookup h hts]
    rfl
  · simp only [handleUpdateAccount, hafind]
  · intro i h key hh hkey h1 h2 h3 h4
    rw [buildAccountUpdateRow_getElem arowInfo.headers arowInfo.rowData
      paccount anow afileUrl i h hh, hkey,
      accountUpdateCell_frame paccount ((lookupP paccount "accountID").getD "")
        anow afileUrl (arowInfo.rowData.getD i "") key h1 h2 h3 h4]

/-- A concrete Tasks sheet for the C10 witness. -/
def c10TaskSheet : Sheet :=
  [["TaskID", "Task Name", "Status"], ["t1", "Old", "Open"]]

/-- A concrete Accounts sheet for the C10 witness. -/
def c10AccSheet : Sheet :=
  [["AccountID", "Location Name", "Status", "Timestamp"],
   ["a1", "HQ", "Active", "T0"]]

/-- Witness for C10: the `Task Name` column (absent from the payload)
keeps `"Old"`, the `Status` column (named by the payload) becomes
`"Done"`, and the account's `Location Name` column (whose camel-cased
key is not a payload key) keeps `"HQ"`. -/
theorem update_overwrites_only_payload_columns_witness :
    (buildUpdatedRow ["TaskID", "Task Name", "Status"] ["t1", "Old", "Open"]
      (stampedPayload [("TaskID", "t1"), ("Status", "Done")] none "NOW"))[1]?
      = some "Old" ∧
    (buildUpdatedRow ["TaskID", "Task Name", "Status"] ["t1", "Old", "Open"]
      (stampedPayload [("TaskID", "t1"), ("Status", "Done")] none "NOW"))[2]?
      = some "Done" ∧
    (buildAccountUpdateRow ["AccountID", "Location Name", "Status", "Timestamp"]
      ["a1", "HQ", "Active", "T0"] [("accountID", "a1"), ("status", "Closed")]
      "NOW2" none)[1]? = some "HQ" := by
  have h := update_overwrites_only_payload_columns "Tasks" c10TaskSheet
    [("TaskID", "t1"), ("Status", "Done")] "TaskID" none "NOW" "t1"
    ⟨2, ["t1", "Old", "Open"], ["TaskID", "Task Name", "Status"]⟩
    (by decide) (by decide) (by decide)
    c10AccSheet [("accountID", "a1"), ("status", "Closed")] "NOW2" none
    ⟨2, ["a1", "HQ", "Active", "T0"],
      ["AccountID", "Location Name", "Status", "Timestamp"]⟩
    (by decide)
  refine ⟨?_, ?_, ?_⟩
  · exact h.2.1 1 "Task Name" (by decide) (by decide) (by simp)
  · exact h.2.2.1 2 "Status" (by decide) (by decide) (by simp)
  · exact h.2.2.2.2 1 "Location Name" "locationName" (by decide) (by decide)
      (by decide) (by decide) (by decide) (by decide)
